import Mathlib

/-!
# Verification of `QuantizedDistribution`
(`tensorflow/contrib/distributions/python/ops/quantized_distribution.py`)

The Python class wraps a base distribution `X` and represents `Y = ceiling(X)`
clamped to optional whole-number cutoffs.  All its evaluators are element-wise
over arrays, so we model a single array element (one batch lane); the base
distribution is modelled by the capability functions the code actually calls
(`cdf`, `survival_function`, `log_cdf`, `log_survival_function`), passed as
plain functions, with `Option` marking an absent capability (Python's
`hasattr` dispatch).

Linear-space values are modelled by `ℚ` (exact stand-in for floats: none of
the linear-space code paths can produce infinities or NaN from finite
inputs).  Log-space code manipulates `-inf` sentinels and can produce NaN,
so log-space values are modelled by `FV`, real numbers extended with
`+inf`, `-inf` and `nan`, with IEEE-style arithmetic (`inf - inf = nan`,
comparisons with `nan` are false, `log` of a negative number is `nan`,
`log 0 = -inf`, `exp (-inf) = 0`).

Python exceptions (`AttributeError` from the capability checks, the
`assert_less` cutoff-ordering check and the `assert_integer_form` check of
`_check_integer`) are modelled with `Except QDError`.
-/

/-- Errors raised by the Python code: `AttributeError` for a missing base
capability, the `assert_less` ordering failure from `__init__`, and the
`assert_integer_form` failure from `_check_integer`. -/
inductive QDError where
  | attributeError
  | orderingViolation
  | integralityViolation
deriving DecidableEq

/-- Model of an IEEE floating-point value as used by the log-space code:
a finite real, `+inf`, `-inf`, or `nan`. -/
inductive FV where
  | nan : FV
  | ninf : FV
  | pinf : FV
  | fin : ℝ → FV

namespace FV

/-- IEEE subtraction: `nan` propagates, `inf - inf = nan` (same sign),
opposite-sign infinities and finite offsets keep the infinity. -/
def sub : FV → FV → FV
  | nan, _ => nan
  | _, nan => nan
  | ninf, ninf => nan
  | ninf, pinf => ninf
  | ninf, fin _ => ninf
  | pinf, pinf => nan
  | pinf, ninf => pinf
  | pinf, fin _ => pinf
  | fin _, ninf => pinf
  | fin _, pinf => ninf
  | fin a, fin b => fin (a - b)

/-- IEEE addition: `nan` propagates, `(-inf) + (+inf) = nan`. -/
def add : FV → FV → FV
  | nan, _ => nan
  | _, nan => nan
  | ninf, pinf => nan
  | pinf, ninf => nan
  | ninf, ninf => ninf
  | ninf, fin _ => ninf
  | fin _, ninf => ninf
  | pinf, pinf => pinf
  | pinf, fin _ => pinf
  | fin _, pinf => pinf
  | fin a, fin b => fin (a + b)

/-- IEEE negation. -/
def neg : FV → FV
  | nan => nan
  | ninf => pinf
  | pinf => ninf
  | fin a => fin (-a)

/-- IEEE `exp`: `exp (-inf) = 0`, `exp (+inf) = +inf`, `nan` propagates. -/
noncomputable def exp : FV → FV
  | nan => nan
  | ninf => fin 0
  | pinf => pinf
  | fin a => fin (Real.exp a)

/-- IEEE `log`: `log` of a negative number is `nan`, `log 0 = -inf`,
`log (+inf) = +inf`, `log (-inf) = nan`, `nan` propagates. -/
noncomputable def log : FV → FV
  | nan => nan
  | ninf => nan
  | pinf => pinf
  | fin a => if a < 0 then nan else if a = 0 then ninf else fin (Real.log a)

/-- IEEE `log1p x = log (1 + x)` (exact model; numpy's `log1p`). -/
noncomputable def log1p (x : FV) : FV := log (add (fin 1) x)

/-- IEEE less-than: any comparison involving `nan` is false. -/
def lt : FV → FV → Prop
  | nan, _ => False
  | _, nan => False
  | ninf, ninf => False
  | ninf, pinf => True
  | ninf, fin _ => True
  | pinf, _ => False
  | fin _, ninf => False
  | fin _, pinf => True
  | fin a, fin b => a < b

noncomputable instance decidableLt : ∀ a b : FV, Decidable (lt a b)
  | nan, nan => .isFalse id
  | nan, ninf => .isFalse id
  | nan, pinf => .isFalse id
  | nan, fin _ => .isFalse id
  | ninf, nan => .isFalse id
  | ninf, ninf => .isFalse id
  | ninf, pinf => .isTrue trivial
  | ninf, fin _ => .isTrue trivial
  | pinf, nan => .isFalse id
  | pinf, ninf => .isFalse id
  | pinf, pinf => .isFalse id
  | pinf, fin _ => .isFalse id
  | fin _, nan => .isFalse id
  | fin _, ninf => .isFalse id
  | fin _, pinf => .isTrue trivial
  | fin a, fin b => inferInstanceAs (Decidable (a < b))

end FV

/-- `_logsum_expbig_minus_expsmall(big, small)`: the source computes
`math_ops.log(1. - math_ops.exp(small - big)) + big`, element-wise in IEEE
arithmetic. -/
noncomputable def logsum_expbig_minus_expsmall (big small : FV) : FV :=
  FV.add (FV.log (FV.sub (FV.fin 1) (FV.exp (FV.sub small big)))) big

namespace QuantizedDistribution

/-- `QuantizedDistribution._cdf`: `j = floor(y)`, evaluate the base cdf at
`j`, then override to `0` where `j < lower_cutoff` and to `1` where
`j >= upper_cutoff` (lower override applied first, as in the source). -/
def cdf (lower upper : Option ℚ) (base_cdf : ℚ → ℚ) (y : ℚ) : ℚ :=
  let j : ℚ := ⌊y⌋
  let result0 := base_cdf j
  let result1 := match lower with
    | none => result0
    | some L => if j < L then 0 else result0
  match upper with
  | none => result1
  | some U => if U ≤ j then 1 else result1

/-- `QuantizedDistribution._survival_function`: `j = ceil(y)`, evaluate the
base survival function at `j`, then override to `1` where `j < lower_cutoff`
and to `0` where `j >= upper_cutoff`. -/
def survival_function (lower upper : Option ℚ) (base_sf : ℚ → ℚ) (y : ℚ) : ℚ :=
  let j : ℚ := ⌈y⌉
  let result0 := base_sf j
  let result1 := match lower with
    | none => result0
    | some L => if j < L then 1 else result0
  match upper with
  | none => result1
  | some U => if U ≤ j then 0 else result1

/-- `QuantizedDistribution._prob_with_cdf`: `cdf(y) - cdf(y - 1)`. -/
def prob_with_cdf (lower upper : Option ℚ) (base_cdf : ℚ → ℚ) (y : ℚ) : ℚ :=
  cdf lower upper base_cdf y - cdf lower upper base_cdf (y - 1)

/-- `QuantizedDistribution._prob_with_sf_and_cdf`: per element, use the
survival difference `sf(y-1) - sf(y)` when `sf(y) < cdf(y)` (right of the
median), otherwise the cumulative difference `cdf(y) - cdf(y-1)`. -/
def prob_with_sf_and_cdf (lower upper : Option ℚ) (base_cdf base_sf : ℚ → ℚ)
    (y : ℚ) : ℚ :=
  let sf_y := survival_function lower upper base_sf y
  let sf_y_minus_1 := survival_function lower upper base_sf (y - 1)
  let cdf_y := cdf lower upper base_cdf y
  let cdf_y_minus_1 := cdf lower upper base_cdf (y - 1)
  if sf_y < cdf_y then sf_y_minus_1 - sf_y else cdf_y - cdf_y_minus_1

/-- `QuantizedDistribution._check_integer` on a `ℚ` value: when
`validate_args` holds and the value is not a whole number, the
`assert_integer_form` dependency fails; otherwise the value passes through. -/
def check_integer (validate : Bool) (v : ℚ) : Except QDError ℚ :=
  if validate ∧ v.den ≠ 1 then .error .integralityViolation else .ok v

/-- `QuantizedDistribution._prob`: raise `AttributeError` when the base
distribution has no `_cdf`; otherwise validate integrality of `y`, then
dispatch on whether the base has `_survival_function`. -/
def prob (base_cdf : Option (ℚ → ℚ)) (base_sf : Option (ℚ → ℚ))
    (lower upper : Option ℚ) (validate : Bool) (y : ℚ) : Except QDError ℚ :=
  match base_cdf with
  | none => .error .attributeError
  | some c =>
    match check_integer validate y with
    | .error e => .error e
    | .ok y2 =>
      match base_sf with
      | some s => .ok (prob_with_sf_and_cdf lower upper c s y2)
      | none => .ok (prob_with_cdf lower upper c y2)

/-- `QuantizedDistribution._sample_n`, one element: ceiling the base draw,
then clamp below to `lower_cutoff` and above to `upper_cutoff`. -/
def sample_one (lower upper : Option ℚ) (x : ℚ) : ℚ :=
  let result0 : ℚ := ⌈x⌉
  let result1 := match lower with
    | none => result0
    | some L => if result0 < L then L else result0
  match upper with
  | none => result1
  | some U => if U < result1 then U else result1

/-- `QuantizedDistribution._sample_n`: the base draws are abstracted as the
list of sampled values; the transform is applied element-wise. -/
def sample_n (lower upper : Option ℚ) (xs : List ℚ) : List ℚ :=
  xs.map (sample_one lower upper)

/-- The `assert_less(lower_cutoff, upper_cutoff)` predicate from `__init__`:
trivially true unless both cutoffs are present. -/
def cutoffs_ordered : Option ℚ → Option ℚ → Bool
  | some l, some u => decide (l < u)
  | _, _ => true

/-- `check_integer` lifted to an optional cutoff. -/
def check_opt (validate : Bool) : Option ℚ → Except QDError (Option ℚ)
  | none => .ok none
  | some v =>
    match check_integer validate v with
    | .ok w => .ok (some w)
    | .error e => .error e

/-- The cutoff-handling part of `QuantizedDistribution.__init__`: when
`validate_args` holds and both cutoffs are present, `assert_less` fires
first; then each present cutoff goes through `_check_integer`.  On any error
no cutoff pair is produced. -/
def init_cutoffs (lower upper : Option ℚ) (validate : Bool) :
    Except QDError (Option ℚ × Option ℚ) :=
  if validate && !(cutoffs_ordered lower upper) then .error .orderingViolation
  else
    match check_opt validate lower with
    | .error e => .error e
    | .ok lo =>
      match check_opt validate upper with
      | .error e => .error e
      | .ok hi => .ok (lo, hi)

/-- `QuantizedDistribution._log_cdf`: `j = floor(y)`, evaluate the base
log-cdf at `j`, then override to `-inf` where `j < lower_cutoff` and to `0`
where `j >= upper_cutoff`. -/
noncomputable def log_cdf (lower upper : Option ℝ) (base_log_cdf : ℝ → FV)
    (y : ℝ) : FV :=
  let j : ℝ := ⌊y⌋
  let result0 := base_log_cdf j
  let result1 := match lower with
    | none => result0
    | some L => if j < L then FV.ninf else result0
  match upper with
  | none => result1
  | some U => if U ≤ j then FV.fin 0 else result1

/-- `QuantizedDistribution._log_survival_function`: `j = ceil(y)`, evaluate
the base log-survival at `j`, then override to `0` where `j < lower_cutoff`
and to `-inf` where `j >= upper_cutoff`. -/
noncomputable def log_survival_function (lower upper : Option ℝ)
    (base_log_sf : ℝ → FV) (y : ℝ) : FV :=
  let j : ℝ := ⌈y⌉
  let result0 := base_log_sf j
  let result1 := match lower with
    | none => result0
    | some L => if j < L then FV.fin 0 else result0
  match upper with
  | none => result1
  | some U => if U ≤ j then FV.ninf else result1

/-- `QuantizedDistribution._log_prob_with_logcdf`:
`_logsum_expbig_minus_expsmall(log_cdf(y), log_cdf(y - 1))`. -/
noncomputable def log_prob_with_logcdf (lower upper : Option ℝ)
    (base_log_cdf : ℝ → FV) (y : ℝ) : FV :=
  logsum_expbig_minus_expsmall (log_cdf lower upper base_log_cdf y)
    (log_cdf lower upper base_log_cdf (y - 1))

/-- `QuantizedDistribution._log_prob_with_logsf_and_logcdf`: select, per
element, `big = logsf(y-1), small = logsf(y)` when `logsf(y) < logcdf(y)`,
else `big = logcdf(y), small = logcdf(y-1)`, and combine with
`_logsum_expbig_minus_expsmall`. -/
noncomputable def log_prob_with_logsf_and_logcdf (lower upper : Option ℝ)
    (base_log_cdf base_log_sf : ℝ → FV) (y : ℝ) : FV :=
  let logsf_y := log_survival_function lower upper base_log_sf y
  let logsf_y_minus_1 := log_survival_function lower upper base_log_sf (y - 1)
  let logcdf_y := log_cdf lower upper base_log_cdf y
  let logcdf_y_minus_1 := log_cdf lower upper base_log_cdf (y - 1)
  let big := if FV.lt logsf_y logcdf_y then logsf_y_minus_1 else logcdf_y
  let small := if FV.lt logsf_y logcdf_y then logsf_y else logcdf_y_minus_1
  logsum_expbig_minus_expsmall big small

open Classical in
/-- `_check_integer` on a real coordinate (log-space paths). -/
noncomputable def check_integer_r (validate : Bool) (v : ℝ) :
    Except QDError ℝ :=
  if validate ∧ ¬∃ m : ℤ, v = (m : ℝ) then .error .integralityViolation
  else .ok v

/-- `QuantizedDistribution._log_prob`: raise `AttributeError` when the base
distribution has no `_log_cdf`; otherwise validate integrality of `y`, then
dispatch on whether the base has `_log_survival_function`. -/
noncomputable def log_prob (base_log_cdf : Option (ℝ → FV))
    (base_log_sf : Option (ℝ → FV)) (lower upper : Option ℝ)
    (validate : Bool) (y : ℝ) : Except QDError FV :=
  match base_log_cdf with
  | none => .error .attributeError
  | some lc =>
    match check_integer_r validate y with
    | .error e => .error e
    | .ok y2 =>
      match base_log_sf with
      | some ls => .ok (log_prob_with_logsf_and_logcdf lower upper lc ls y2)
      | none => .ok (log_prob_with_logcdf lower upper lc y2)

end QuantizedDistribution

/-! ## Helper lemmas -/

/-- Evaluating `FV.log` at a positive finite value. -/
lemma FV.log_fin_of_pos {a : ℝ} (h : 0 < a) :
    FV.log (FV.fin a) = FV.fin (Real.log a) := by
  show (if a < 0 then FV.nan else if a = 0 then FV.ninf else FV.fin (Real.log a))
      = FV.fin (Real.log a)
  rw [if_neg (by linarith), if_neg (by linarith)]

/-- Evaluating `FV.log` at a negative finite value. -/
lemma FV.log_fin_of_neg {a : ℝ} (h : a < 0) : FV.log (FV.fin a) = FV.nan := by
  show (if a < 0 then FV.nan else if a = 0 then FV.ninf else FV.fin (Real.log a))
      = FV.nan
  rw [if_pos h]

/-- At whole-number coordinates, whenever the base survival function is the
exact complement of the base cdf, the quantized survival function is the
exact complement of the quantized cdf, for every cutoff configuration (both
overrides test the same predicates on the same integer `j`, in the same
order). -/
lemma survival_complement (lower upper : Option ℚ) (bc bs : ℚ → ℚ)
    (hcomp : ∀ x, bs x = 1 - bc x) (m : ℤ) :
    QuantizedDistribution.survival_function lower upper bs (m : ℚ)
      = 1 - QuantizedDistribution.cdf lower upper bc (m : ℚ) := by
  simp only [QuantizedDistribution.survival_function, QuantizedDistribution.cdf,
    Int.floor_intCast, Int.ceil_intCast, hcomp]
  cases lower <;> cases upper <;> dsimp only <;> split_ifs <;> ring

/-! ## Claim theorems -/

/-- C1: with both cutoffs `L < U` present (whole numbers), for every base
distribution (arbitrary base cdf / log-cdf values), the quantized
`cdf(U) = 1` and `cdf(L - 1) = 0` exactly, and `log_cdf(U) = 0` and
`log_cdf(L - 1) = -infinity`. -/
theorem quantized_cdf_cutoff_boundary (L U : ℤ) (hLU : L < U)
    (bc : ℚ → ℚ) (blc : ℝ → FV) :
    QuantizedDistribution.cdf (some (L : ℚ)) (some (U : ℚ)) bc (U : ℚ) = 1 ∧
    QuantizedDistribution.cdf (some (L : ℚ)) (some (U : ℚ)) bc ((L : ℚ) - 1) = 0 ∧
    QuantizedDistribution.log_cdf (some (L : ℝ)) (some (U : ℝ)) blc (U : ℝ)
      = FV.fin 0 ∧
    QuantizedDistribution.log_cdf (some (L : ℝ)) (some (U : ℝ)) blc ((L : ℝ) - 1)
      = FV.ninf := by
  refine ⟨?_, ?_, ?_, ?_⟩
  · simp only [QuantizedDistribution.cdf, Int.floor_intCast]
    rw [if_pos le_rfl]
  · simp only [QuantizedDistribution.cdf]
    rw [show ((L : ℚ) - 1) = ((L - 1 : ℤ) : ℚ) by push_cast; ring, Int.floor_intCast]
    have h1 : (L : ℚ) < U := by exact_mod_cast hLU
    rw [if_neg (by push_cast; linarith), if_pos (by push_cast; linarith)]
  · simp only [QuantizedDistribution.log_cdf, Int.floor_intCast]
    rw [if_pos le_rfl]
  · simp only [QuantizedDistribution.log_cdf]
    rw [show ((L : ℝ) - 1) = ((L - 1 : ℤ) : ℝ) by push_cast; ring, Int.floor_intCast]
    have h2 : (L : ℝ) < U := by exact_mod_cast hLU
    rw [if_neg (by push_cast; linarith), if_pos (by push_cast; linarith)]

theorem quantized_cdf_cutoff_boundary_witness :
    (0 : ℤ) < 2 ∧
    (QuantizedDistribution.cdf (some ((0 : ℤ) : ℚ)) (some ((2 : ℤ) : ℚ))
        (fun _ => 37 / 100) ((2 : ℤ) : ℚ) = 1 ∧
     QuantizedDistribution.cdf (some ((0 : ℤ) : ℚ)) (some ((2 : ℤ) : ℚ))
        (fun _ => 37 / 100) (((0 : ℤ) : ℚ) - 1) = 0 ∧
     QuantizedDistribution.log_cdf (some ((0 : ℤ) : ℝ)) (some ((2 : ℤ) : ℝ))
        (fun _ => FV.fin (-5)) ((2 : ℤ) : ℝ) = FV.fin 0 ∧
     QuantizedDistribution.log_cdf (some ((0 : ℤ) : ℝ)) (some ((2 : ℤ) : ℝ))
        (fun _ => FV.fin (-5)) (((0 : ℤ) : ℝ) - 1) = FV.ninf) :=
  ⟨by decide,
   quantized_cdf_cutoff_boundary 0 2 (by decide) (fun _ => 37 / 100)
     (fun _ => FV.fin (-5))⟩

/-- C2: at every whole-number coordinate, when the base survival function is
the exact complement of the base cdf, the dual-formula probability
`_prob_with_sf_and_cdf` equals the single cumulative difference
`cdf(y) - cdf(y - 1)` exactly, for every cutoff configuration. -/
theorem quantized_prob_dual_eq_cdf_diff (lower upper : Option ℚ)
    (bc bs : ℚ → ℚ) (hcomp : ∀ x, bs x = 1 - bc x) (m : ℤ) :
    QuantizedDistribution.prob_with_sf_and_cdf lower upper bc bs (m : ℚ)
      = QuantizedDistribution.cdf lower upper bc (m : ℚ)
        - QuantizedDistribution.cdf lower upper bc ((m : ℚ) - 1) := by
  have hm1 : ((m : ℚ) - 1) = ((m - 1 : ℤ) : ℚ) := by push_cast; ring
  simp only [QuantizedDistribution.prob_with_sf_and_cdf, hm1,
    survival_complement lower upper bc bs hcomp]
  split_ifs <;> ring

theorem quantized_prob_dual_eq_cdf_diff_witness :
    (∀ x : ℚ, (fun t : ℚ => 1 - t) x = 1 - (fun t : ℚ => t) x) ∧
    QuantizedDistribution.prob_with_sf_and_cdf (some 0) (some 2)
        (fun t : ℚ => t) (fun t : ℚ => 1 - t) ((1 : ℤ) : ℚ)
      = QuantizedDistribution.cdf (some 0) (some 2) (fun t : ℚ => t) ((1 : ℤ) : ℚ)
        - QuantizedDistribution.cdf (some 0) (some 2) (fun t : ℚ => t)
            (((1 : ℤ) : ℚ) - 1) :=
  ⟨fun _ => rfl,
   quantized_prob_dual_eq_cdf_diff (some 0) (some 2) (fun t : ℚ => t)
     (fun t : ℚ => 1 - t) (fun _ => rfl) 1⟩

/-- C4 counterexample: with no cutoffs and a base whose survival function is
the exact complement of its cdf (the uniform-on-(0,1) cdf), the quantized
`survival_function(0.5) + cdf(0.5)` is `0`, not `1`: the survival path
evaluates the base at `ceil(0.5) = 1` while the cdf path evaluates at
`floor(0.5) = 0`, so the complement identity fails at fractional
coordinates. -/
theorem quantized_sf_cdf_complement_cex :
    QuantizedDistribution.survival_function none none
        (fun x => 1 - max 0 (min 1 x)) (1 / 2)
      + QuantizedDistribution.cdf none none (fun x => max 0 (min 1 x)) (1 / 2)
      ≠ 1 := by
  have hceil : ⌈(1 / 2 : ℚ)⌉ = 1 := by
    rw [Int.ceil_eq_iff]
    norm_num
  have hfloor : ⌊(1 / 2 : ℚ)⌋ = 0 := by
    rw [Int.floor_eq_iff]
    norm_num
  have h1 : QuantizedDistribution.survival_function none none
      (fun x => 1 - max 0 (min 1 x)) (1 / 2) = 0 := by
    show (fun x : ℚ => 1 - max 0 (min 1 x)) ((⌈(1 / 2 : ℚ)⌉ : ℤ) : ℚ) = 0
    rw [hceil]
    norm_num
  have h2 : QuantizedDistribution.cdf none none
      (fun x => max 0 (min 1 x)) (1 / 2) = 0 := by
    show (fun x : ℚ => max 0 (min 1 x)) ((⌊(1 / 2 : ℚ)⌋ : ℤ) : ℚ) = 0
    rw [hfloor]
    norm_num
  rw [h1, h2]
  norm_num

/-- C4 (amended): with no cutoffs and the base survival function the exact
complement of the base cdf, `survival_function(y) + cdf(y) = 1` holds at
every whole-number coordinate `y` (the code evaluates survival at `ceil(y)`
and cdf at `floor(y)`, which agree only at whole numbers). -/
theorem quantized_sf_cdf_complement_whole (bc bs : ℚ → ℚ)
    (hcomp : ∀ x, bs x = 1 - bc x) (m : ℤ) :
    QuantizedDistribution.survival_function none none bs (m : ℚ)
      + QuantizedDistribution.cdf none none bc (m : ℚ) = 1 := by
  rw [survival_complement none none bc bs hcomp m]
  ring

theorem quantized_sf_cdf_complement_whole_witness :
    (∀ x : ℚ, (fun t : ℚ => 1 - t) x = 1 - (fun t : ℚ => t) x) ∧
    QuantizedDistribution.survival_function none none (fun t : ℚ => 1 - t)
        ((3 : ℤ) : ℚ)
      + QuantizedDistribution.cdf none none (fun t : ℚ => t) ((3 : ℤ) : ℚ) = 1 :=
  ⟨fun _ => rfl,
   quantized_sf_cdf_complement_whole (fun t : ℚ => t) (fun t : ℚ => 1 - t)
     (fun _ => rfl) 3⟩

/-- C5: with no cutoffs, the quantized cdf at any real coordinate is the
base cdf at `floor(y)`; in particular `cdf(0.3)` is the base cdf at `0` and
`cdf(-0.3)` is the base cdf at `-1`. -/
theorem quantized_cdf_floor (bc : ℚ → ℚ) (y : ℚ) :
    QuantizedDistribution.cdf none none bc y = bc (⌊y⌋ : ℚ) ∧
    QuantizedDistribution.cdf none none bc (3 / 10) = bc 0 ∧
    QuantizedDistribution.cdf none none bc (-(3 / 10)) = bc (-1) := by
  refine ⟨rfl, ?_, ?_⟩
  · show bc ((⌊(3 / 10 : ℚ)⌋ : ℤ) : ℚ) = bc 0
    norm_num
  · show bc ((⌊(-(3 / 10) : ℚ)⌋ : ℤ) : ℚ) = bc (-1)
    norm_num

/-- C8: when the base distribution lacks the cumulative capability required
by the query (`_cdf` for `prob`, `_log_cdf` for `log_prob`), the call
returns the unsupported-operation error (`AttributeError`) and never a
numeric result, regardless of the validation flag, the coordinate, the
cutoffs and any survival capability; the model is a pure function of the
immutable distribution data, so one failed call leaves every other call
unchanged. -/
theorem quantized_prob_requires_cdf (bsf : Option (ℚ → ℚ))
    (blsf : Option (ℝ → FV)) (lower upper : Option ℚ) (lowerR upperR : Option ℝ)
    (validate : Bool) (y : ℚ) (yr : ℝ) :
    QuantizedDistribution.prob none bsf lower upper validate y
      = Except.error QDError.attributeError ∧
    QuantizedDistribution.log_prob none blsf lowerR upperR validate yr
      = Except.error QDError.attributeError :=
  ⟨rfl, rfl⟩

/-- C9: constructing with both cutoffs present and `lower >= upper` while
validation is enabled fails with the ordering-violation error, and the
failed construction produces no cutoff pair at all. -/
theorem quantized_init_ordering_violation (l u : ℚ) (h : u ≤ l) :
    QuantizedDistribution.init_cutoffs (some l) (some u) true
      = Except.error QDError.orderingViolation := by
  have hco : QuantizedDistribution.cutoffs_ordered (some l) (some u) = false := by
    simp only [QuantizedDistribution.cutoffs_ordered, decide_eq_false_iff_not]
    exact not_lt.mpr h
  unfold QuantizedDistribution.init_cutoffs
  rw [hco]
  rfl

theorem quantized_init_ordering_violation_witness :
    (5 : ℚ) ≤ 5 ∧
    QuantizedDistribution.init_cutoffs (some 5) (some 5) true
      = Except.error QDError.orderingViolation :=
  ⟨le_refl 5, quantized_init_ordering_violation 5 5 (le_refl 5)⟩

/-- C10: with both cutoffs present, `lower < upper`, and whole-number-valued
cutoffs, every element produced by `sample_n` lies in the closed interval
`[lower, upper]` and is whole-number-valued. -/
theorem quantized_sample_in_range (L U : ℤ) (hLU : L < U) (xs : List ℚ)
    (r : ℚ) (hr : r ∈ QuantizedDistribution.sample_n (some (L : ℚ))
      (some (U : ℚ)) xs) :
    ((L : ℚ) ≤ r ∧ r ≤ (U : ℚ)) ∧ ∃ m : ℤ, r = (m : ℚ) := by
  obtain ⟨x, _, rfl⟩ := List.mem_map.mp hr
  have hLU' : (L : ℚ) ≤ U := by exact_mod_cast hLU.le
  unfold QuantizedDistribution.sample_one
  dsimp only
  split_ifs with h1 h2 h3
  · exact ⟨⟨hLU', le_refl _⟩, U, rfl⟩
  · exact ⟨⟨le_refl _, hLU'⟩, L, rfl⟩
  · exact ⟨⟨hLU', le_refl _⟩, U, rfl⟩
  · exact ⟨⟨not_lt.mp h1, not_lt.mp h3⟩, ⌈x⌉, rfl⟩

theorem quantized_sample_in_range_witness :
    (0 : ℤ) < 2 ∧
    ((2 : ℚ) ∈ QuantizedDistribution.sample_n (some ((0 : ℤ) : ℚ))
      (some ((2 : ℤ) : ℚ)) [7 / 2]) ∧
    ((((0 : ℤ) : ℚ) ≤ 2 ∧ (2 : ℚ) ≤ ((2 : ℤ) : ℚ)) ∧ ∃ m : ℤ, (2 : ℚ) = (m : ℚ)) := by
  have hceil : ⌈(7 / 2 : ℚ)⌉ = 4 := by
    rw [Int.ceil_eq_iff]
    norm_num
  have hone : QuantizedDistribution.sample_one (some ((0 : ℤ) : ℚ))
      (some ((2 : ℤ) : ℚ)) (7 / 2) = 2 := by
    unfold QuantizedDistribution.sample_one
    dsimp only
    rw [hceil]
    norm_num
  have hmem : (2 : ℚ) ∈ QuantizedDistribution.sample_n (some ((0 : ℤ) : ℚ))
      (some ((2 : ℤ) : ℚ)) [7 / 2] := by
    unfold QuantizedDistribution.sample_n
    rw [List.map_cons, List.map_nil, hone]
    exact List.mem_singleton.mpr rfl
  exact ⟨by decide, hmem,
    quantized_sample_in_range 0 2 (by decide) [7 / 2] 2 hmem⟩

/-- Evaluating `FV.log` at finite zero gives `-inf`. -/
lemma FV.log_fin_zero : FV.log (FV.fin 0) = FV.ninf := by
  show (if (0 : ℝ) < 0 then FV.nan
      else if (0 : ℝ) = 0 then FV.ninf else FV.fin (Real.log 0)) = FV.ninf
  rw [if_neg (lt_irrefl 0), if_pos rfl]

/-- C3 (the code violates the claim): at the whole-number coordinate `y = 3`
with cutoffs `lower = 0 < upper = 2` (so `y` is above the upper cutoff), the
selection in `_log_prob_with_logsf_and_logcdf` picks the survival pair
(`logsf(y) = -inf < logcdf(y) = 0`), but both members of that pair are the
`-inf` boundary sentinel, so the primitive receives `big = small = -inf`,
forms `small - big = (-inf) - (-inf)`, and the log-probability comes out
NaN — contradicting the claim (and the source comment) that no selected
operand is infinite and no `inf - inf` expression is created. -/
theorem quantized_log_prob_inf_minus_inf (blc bls : ℝ → FV) :
    QuantizedDistribution.log_survival_function (some (0 : ℝ)) (some 2) bls
        ((3 : ℝ) - 1) = FV.ninf ∧
    QuantizedDistribution.log_survival_function (some (0 : ℝ)) (some 2) bls 3
      = FV.ninf ∧
    FV.lt (QuantizedDistribution.log_survival_function (some (0 : ℝ)) (some 2)
        bls 3)
      (QuantizedDistribution.log_cdf (some (0 : ℝ)) (some 2) blc 3) ∧
    FV.sub FV.ninf FV.ninf = FV.nan ∧
    QuantizedDistribution.log_prob_with_logsf_and_logcdf (some (0 : ℝ)) (some 2)
        blc bls 3 = FV.nan := by
  have hsf1 : QuantizedDistribution.log_survival_function (some (0 : ℝ)) (some 2)
      bls ((3 : ℝ) - 1) = FV.ninf := by
    unfold QuantizedDistribution.log_survival_function
    dsimp only
    rw [show ((3 : ℝ) - 1) = ((2 : ℤ) : ℝ) by norm_num, Int.ceil_intCast]
    rw [if_pos (by norm_num)]
  have hsf : QuantizedDistribution.log_survival_function (some (0 : ℝ)) (some 2)
      bls 3 = FV.ninf := by
    unfold QuantizedDistribution.log_survival_function
    dsimp only
    rw [show (3 : ℝ) = ((3 : ℤ) : ℝ) by norm_num, Int.ceil_intCast]
    rw [if_pos (by norm_num)]
  have hcdf : QuantizedDistribution.log_cdf (some (0 : ℝ)) (some 2) blc 3
      = FV.fin 0 := by
    unfold QuantizedDistribution.log_cdf
    dsimp only
    rw [show (3 : ℝ) = ((3 : ℤ) : ℝ) by norm_num, Int.floor_intCast]
    rw [if_pos (by norm_num)]
  have hlt : FV.lt (QuantizedDistribution.log_survival_function (some (0 : ℝ))
      (some 2) bls 3)
      (QuantizedDistribution.log_cdf (some (0 : ℝ)) (some 2) blc 3) := by
    rw [hsf, hcdf]
    trivial
  refine ⟨hsf1, hsf, hlt, rfl, ?_⟩
  unfold QuantizedDistribution.log_prob_with_logsf_and_logcdf
  dsimp only
  rw [hsf, hsf1, hcdf]
  rw [if_pos (show FV.lt FV.ninf (FV.fin 0) from trivial)]
  rfl

/-- C6: for finite operands with `small <= big`, the stable log-difference
primitive (computed in the source as `log(1 - exp(small - big)) + big`)
returns `log(exp(big) - exp(small))`, and coincides with the spec's
formulation `log1p(-exp(small - big)) + big` (at `small = big` all three
are `-inf`, matching IEEE evaluation). -/
theorem logsum_expbig_minus_expsmall_correct (b s : ℝ) (h : s ≤ b) :
    logsum_expbig_minus_expsmall (FV.fin b) (FV.fin s)
      = FV.log (FV.sub (FV.exp (FV.fin b)) (FV.exp (FV.fin s))) ∧
    logsum_expbig_minus_expsmall (FV.fin b) (FV.fin s)
      = FV.add (FV.log1p (FV.neg (FV.exp (FV.sub (FV.fin s) (FV.fin b)))))
          (FV.fin b) := by
  rcases eq_or_lt_of_le h with heq | hlt
  · subst heq
    constructor
    · calc logsum_expbig_minus_expsmall (FV.fin s) (FV.fin s)
          = FV.add (FV.log (FV.fin (1 - Real.exp (s - s)))) (FV.fin s) := rfl
        _ = FV.add (FV.log (FV.fin 0)) (FV.fin s) := by
            rw [sub_self, Real.exp_zero, sub_self]
        _ = FV.ninf := by
            rw [FV.log_fin_zero]
            rfl
        _ = FV.log (FV.sub (FV.exp (FV.fin s)) (FV.exp (FV.fin s))) := by
            show FV.ninf = FV.log (FV.fin (Real.exp s - Real.exp s))
            rw [sub_self, FV.log_fin_zero]
    · calc logsum_expbig_minus_expsmall (FV.fin s) (FV.fin s)
          = FV.add (FV.log (FV.fin (1 - Real.exp (s - s)))) (FV.fin s) := rfl
        _ = FV.add (FV.log (FV.fin 0)) (FV.fin s) := by
            rw [sub_self, Real.exp_zero, sub_self]
        _ = FV.add (FV.log1p (FV.neg (FV.exp (FV.sub (FV.fin s) (FV.fin s)))))
              (FV.fin s) := by
            show _ = FV.add (FV.log (FV.fin (1 + -Real.exp (s - s)))) (FV.fin s)
            rw [sub_self, Real.exp_zero, show (1 : ℝ) + -1 = 0 by ring]
  · have hlt' := Real.exp_lt_exp.mpr (sub_neg.mpr hlt)
    rw [Real.exp_zero] at hlt'
    have hpos : (0 : ℝ) < 1 - Real.exp (s - b) := by linarith
    have hpos2 : (0 : ℝ) < Real.exp b - Real.exp s := by
      have := Real.exp_lt_exp.mpr hlt
      linarith
    have hlog : Real.log (Real.exp b - Real.exp s)
        = Real.log (1 - Real.exp (s - b)) + b := by
      have hfact : Real.exp b - Real.exp s
          = Real.exp b * (1 - Real.exp (s - b)) := by
        rw [mul_sub, mul_one, ← Real.exp_add]
        ring_nf
      rw [hfact, Real.log_mul (Real.exp_ne_zero b) (ne_of_gt hpos),
        Real.log_exp, add_comm]
    constructor
    · show FV.add (FV.log (FV.fin (1 - Real.exp (s - b)))) (FV.fin b)
          = FV.log (FV.fin (Real.exp b - Real.exp s))
      rw [FV.log_fin_of_pos hpos, FV.log_fin_of_pos hpos2, hlog]
      rfl
    · show FV.add (FV.log (FV.fin (1 - Real.exp (s - b)))) (FV.fin b)
          = FV.add (FV.log (FV.fin (1 + -Real.exp (s - b)))) (FV.fin b)
      rw [show (1 : ℝ) + -Real.exp (s - b) = 1 - Real.exp (s - b) by ring]

theorem logsum_expbig_minus_expsmall_correct_witness :
    (0 : ℝ) ≤ 1 ∧
    (logsum_expbig_minus_expsmall (FV.fin 1) (FV.fin 0)
      = FV.log (FV.sub (FV.exp (FV.fin 1)) (FV.exp (FV.fin 0))) ∧
    logsum_expbig_minus_expsmall (FV.fin 1) (FV.fin 0)
      = FV.add (FV.log1p (FV.neg (FV.exp (FV.sub (FV.fin 0) (FV.fin 1)))))
          (FV.fin 1)) :=
  ⟨by norm_num, logsum_expbig_minus_expsmall_correct 1 0 (by norm_num)⟩

/-- C7: whenever the precondition is violated (`small > big` in the IEEE
order, which is never satisfied by `nan` operands), the stable
log-difference primitive evaluates to the NaN sentinel; the primitive is a
total function on values, so the NaN propagates as data and no exceptional
control flow exists. -/
theorem logsum_expbig_minus_expsmall_nan_on_violation (big small : FV)
    (h : FV.lt big small) :
    logsum_expbig_minus_expsmall big small = FV.nan := by
  rcases big with _ | _ | _ | b <;> rcases small with _ | _ | _ | s <;>
    try exact h.elim
  · rfl
  · rfl
  · rfl
  · have hlt : b < s := h
    have h1 : (1 : ℝ) < Real.exp (s - b) := by
      have := Real.exp_lt_exp.mpr (show (0 : ℝ) < s - b by linarith)
      rwa [Real.exp_zero] at this
    show FV.add (FV.log (FV.fin (1 - Real.exp (s - b)))) (FV.fin b) = FV.nan
    rw [FV.log_fin_of_neg (by linarith)]
    rfl

theorem logsum_expbig_minus_expsmall_nan_on_violation_witness :
    FV.lt (FV.fin 0) (FV.fin 1) ∧
    logsum_expbig_minus_expsmall (FV.fin 0) (FV.fin 1) = FV.nan :=
  ⟨by norm_num [FV.lt],
   logsum_expbig_minus_expsmall_nan_on_violation (FV.fin 0) (FV.fin 1)
     (by norm_num [FV.lt])⟩
